import Mathlib

/-!
Verification of the office-attendance compliance engine.

Shallow embedding of the core services:
  * `src/backend/app/services/attendance_analyzer.py`
    (`_parse_daily_attendance`, `_analyze_weekly_patterns`, `_evaluate_compliance`)
  * `src/backend/app/services/compliance_checker.py`
    (`_group_by_day`, `_check_minimum_days`, `_check_weekly_distribution`,
     `_check_minimum_hours`, `_day_meets_minimum_hours`, `_count_weeks_in_period`,
     `check_multiple_employees_compliance`)

Modelling conventions:
  * a punch record is reduced to its `FECHA_FICHADA` timestamp, an `Int`
    counting seconds (Python naive datetimes at second granularity);
  * a calendar date is the floor of the timestamp by 86400 (the day number),
    matching `datetime.date()` truncation;
  * Python float hour arithmetic is embedded as exact rational arithmetic
    over `ℚ` (every value is a count of seconds divided by 3600);
  * Python dicts keyed by date are embedded either as key lists (`dedup` of
    the mapped dates, only the key set matters to the rules) or as lookup
    functions into `Option`;
  * the enum member `ComplianceStatus.PARTIAL` is rendered `partialStatus`
    because the bare word is a Lean keyword.
-/

/-- The `ComplianceStatus` enum of `models.py`. -/
inductive ComplianceStatus where
  | compliant
  | nonCompliant
  | partialStatus
  | warning
deriving DecidableEq, Repr

/-- The `DailyAttendance` model of `models.py`: one calendar day's summary.
`date` is the day number; times are second timestamps; hours are exact. -/
structure DailyAttendance where
  date : Int
  entry_time : Option Int
  exit_time : Option Int
  hours_worked : Option ℚ
  is_complete : Bool
  meets_9h_requirement : Bool
deriving DecidableEq, Repr

/-- The `WeeklyPattern` model of `models.py`. `week_start` and `week_end`
are day numbers of the first and last in-month day of the week. -/
structure WeeklyPattern where
  week_start : Int
  week_end : Int
  days_attended : Nat
  total_hours : ℚ
  days_details : List DailyAttendance
  meets_pattern_requirement : Bool
deriving DecidableEq, Repr

/-- The per-employee verdict dict built by `ComplianceChecker`
(`employee_id`, `period`, `compliance`, `reason`; `details` omitted). -/
structure Verdict where
  employee_id : Int
  period : String
  compliance : Bool
  reason : String
deriving DecidableEq, Repr

/-- The dict returned by `_check_minimum_days`. -/
structure Rule1Result where
  compliant : Bool
  days_attended : Nat
  min_required : Nat
  total_records_available : Nat
  reason : String
deriving DecidableEq, Repr

/-- The dict returned by `_check_weekly_distribution`. -/
structure Rule2Result where
  compliant : Bool
  weeks_with_attendance : Nat
  total_weeks_in_period : Int
  min_weeks_required : Int
  reason : String
deriving DecidableEq, Repr

/-- The dict returned by `_check_minimum_hours`. -/
structure Rule3Result where
  compliant : Bool
  days_meeting_hours : Nat
  total_days : Nat
  min_days_required : Nat
  reason : String
deriving DecidableEq, Repr

/-- `datetime.date()` as day-number truncation of a second timestamp
(floor division, as Python's calendar-day truncation of naive datetimes). -/
def dateOf (t : Int) : Int := t.fdiv 86400

/-- `timedelta.days` of `t2 - t1`: Python's `.days` floors toward minus
infinity, which is `Int.fdiv` by 86400. -/
def daysBetween (t2 t1 : Int) : Int := (t2 - t1).fdiv 86400

/-- Elapsed time between two second timestamps in fractional hours
(`total_seconds() / 3600`). -/
def hoursBetween (entry exit : Int) : ℚ := ((exit - entry : Int) : ℚ) / 3600

/-- Python's `sorted` on timestamps (both services sort a day's records
ascending before pairing). -/
def sortRecords (l : List Int) : List Int := List.insertionSort (· ≤ ·) l

/-- The per-date body of `_parse_daily_attendance`
(`attendance_analyzer.py` lines 29-61): sort the day's records, then
branch on exactly 2 / exactly 1 / anything else. -/
def parse_day_records (date : Int) (day_records : List Int) : DailyAttendance :=
  match sortRecords day_records with
  | [a, b] =>
      { date := date
        entry_time := some a
        exit_time := some b
        hours_worked := some (hoursBetween a b)
        is_complete := true
        meets_9h_requirement := decide (9 ≤ hoursBetween a b) }
  | [a] =>
      { date := date
        entry_time := some a
        exit_time := none
        hours_worked := none
        is_complete := false
        meets_9h_requirement := false }
  | _ =>
      { date := date
        entry_time := none
        exit_time := none
        hours_worked := none
        is_complete := false
        meets_9h_requirement := false }

/-- The records of `records` that fall on calendar date `d`
(the date-grouping of `_parse_daily_attendance`). -/
def groupForDate (records : List Int) (d : Int) : List Int :=
  records.filter (fun t => decide (dateOf t = d))

/-- `_parse_daily_attendance` as a date-indexed lookup: a date is a key of
the produced dict iff some record falls on it, and its value is the
processed day. -/
def parse_daily_attendance (records : List Int) (d : Int) : Option DailyAttendance :=
  match groupForDate records d with
  | [] => none
  | g => some (parse_day_records d g)

/-- Successive 7-day rows after the first row of `calendar.monthcalendar`,
restricted to their in-month day numbers. -/
def chunks7 : List Nat → List (List Nat)
  | [] => []
  | d :: rest => (d :: rest.take 6) :: chunks7 (rest.drop 6)
termination_by l => l.length
decreasing_by simp; omega

/-- `calendar.monthcalendar year month`, each row restricted to its nonzero
(in-month) day numbers, abstracted over the month's shape: `w` is the
Monday-based weekday of day 1 and `n` the number of days in the month.
The first row holds days `1 .. 7-w`; later rows are 7-day blocks. -/
def monthWeeks (w n : Nat) : List (List Nat) :=
  match List.range' 1 n with
  | [] => []
  | d :: rest => (d :: rest.take (6 - w)) :: chunks7 (rest.drop (6 - w))

/-- The per-week body of `_analyze_weekly_patterns` (lines 77-110): collect
the attendance entries of the week's in-month days, count the complete ones
and sum their hours. -/
def buildWeek (att : Nat → Option DailyAttendance) (week : List Nat) : WeeklyPattern :=
  let week_days := week.filterMap att
  let completes := week_days.filter (fun a => a.is_complete)
  { week_start := (week.headD 0 : Nat)
    week_end := (week.getLastD 0 : Nat)
    days_attended := completes.length
    total_hours := (completes.map (fun a => a.hours_worked.getD 0)).sum
    days_details := week_days
    meets_pattern_requirement := decide (completes.length = 1 ∨ completes.length = 2) }

/-- `_analyze_weekly_patterns`: one `WeeklyPattern` per week of the month
that has at least one in-month day (the `continue` guard). -/
def analyze_weekly_patterns (att : Nat → Option DailyAttendance) (w n : Nat) :
    List WeeklyPattern :=
  ((monthWeeks w n).filter (fun wk => !wk.isEmpty)).map (buildWeek att)

/-- `total_days_attended` as computed by `analyze_employee_month` (line 189):
the sum of `days_attended` over the month's weekly patterns. -/
def total_days_attended (att : Nat → Option DailyAttendance) (w n : Nat) : Nat :=
  ((analyze_weekly_patterns att w n).map (fun p => p.days_attended)).sum

/-- The overall-status combination of `_evaluate_compliance`
(lines 151-159): note the middle branch looks only at the days and hours
dimensions, not at `pattern_compliance`. -/
def combineOverall (days_c hours_c : ComplianceStatus) (pattern_c : Bool) :
    ComplianceStatus :=
  if days_c = ComplianceStatus.compliant ∧ hours_c = ComplianceStatus.compliant ∧
      pattern_c = true then
    ComplianceStatus.compliant
  else if days_c = ComplianceStatus.nonCompliant ∨ hours_c = ComplianceStatus.nonCompliant then
    ComplianceStatus.nonCompliant
  else
    ComplianceStatus.partialStatus

/-- `_evaluate_compliance` (lines 114-161), returning
`(days_compliance, hours_compliance, overall_compliance, pattern_compliance)`
exactly as the source does.  `total_hours_worked` is accepted and unused,
as in the source. -/
def evaluate_compliance (weekly_patterns : List WeeklyPattern)
    (totalDays : Nat) (total_hours_worked : ℚ) :
    ComplianceStatus × ComplianceStatus × ComplianceStatus × Bool :=
  let days_compliance :=
    if totalDays ≥ 6 then ComplianceStatus.compliant
    else if totalDays ≥ 4 then ComplianceStatus.partialStatus
    else ComplianceStatus.nonCompliant
  let valid_days : Nat :=
    ((weekly_patterns.map
      (fun p => (p.days_details.filter (fun d => d.is_complete)).length)).sum)
  let hours_compliant_days : Nat :=
    ((weekly_patterns.map
      (fun p => (p.days_details.filter
        (fun d => d.is_complete && d.meets_9h_requirement)).length)).sum)
  let hours_compliance :=
    if valid_days = 0 then ComplianceStatus.nonCompliant
    else if hours_compliant_days = valid_days then ComplianceStatus.compliant
    else if (hours_compliant_days : ℚ) ≥ (valid_days : ℚ) * (8 / 10) then
      ComplianceStatus.partialStatus
    else ComplianceStatus.nonCompliant
  let weeks_with_invalid :=
    (weekly_patterns.filter (fun p => decide (p.days_attended > 2))).length
  let pattern_compliance := decide (weeks_with_invalid = 0)
  (days_compliance, hours_compliance,
   combineOverall days_compliance hours_compliance pattern_compliance,
   pattern_compliance)

/-- The key set of `_group_by_day` (`compliance_checker.py` lines 101-162)
when period bounds are given: records strictly before `start` or after
`end` are skipped, the rest are keyed by their calendar date. Only the set
of keys feeds the three rules, so the dict is embedded as its key list. -/
def group_by_day_keys (attendance_data : List Int) (start_d end_d : Int) : List Int :=
  ((attendance_data.filter
      (fun t => decide (start_d ≤ t) && decide (t ≤ end_d))).map dateOf).dedup

/-- `_check_minimum_days` (lines 164-185). `daily_keys` is the grouped
dict's key list; `total_records` is `len(attendance_data)`. -/
def check_minimum_days (daily_keys : List Int) (total_records : Nat) : Rule1Result :=
  let days_with_attendance := daily_keys.length
  let min_required : Nat := 6
  let compliant := decide (days_with_attendance ≥ min_required)
  let reason :=
    if total_records > 0 ∧ days_with_attendance = 0 then
      "Se requieren mínimo " ++ toString min_required ++ " días, se asistió " ++
        toString days_with_attendance ++ " días (Total registros: " ++
        toString total_records ++ ", pero ninguno en el período especificado)"
    else
      "Se requieren mínimo " ++ toString min_required ++ " días, se asistió " ++
        toString days_with_attendance ++ " días"
  { compliant := compliant
    days_attended := days_with_attendance
    min_required := min_required
    total_records_available := total_records
    reason := reason }

/-- `_count_weeks_in_period` (lines 286-304): `(end - start).days // 7 + 1`,
at least 1, capped at 5. -/
def count_weeks_in_period (start_d end_d : Int) : Int :=
  let days_diff := daysBetween end_d start_d
  let weeks_count := max 1 (days_diff.fdiv 7 + 1)
  if weeks_count > 5 then 5 else weeks_count

/-- The period-relative week number `_check_weekly_distribution` assigns to
a date key `d` (day number): the parsed `date_obj` is midnight of `d`, and
`(date_obj - start_date).days // 7 + 1`. -/
def weekNumberOf (start_d : Int) (d : Int) : Int :=
  (daysBetween (d * 86400) start_d).fdiv 7 + 1

/-- `_check_weekly_distribution` (lines 187-221). The set
`weeks_with_attendance` is embedded as the `dedup` of the mapped week
numbers (only its size is used). -/
def check_weekly_distribution (daily_keys : List Int) (start_d end_d : Int) :
    Rule2Result :=
  let weeks_with_attendance := (daily_keys.map (weekNumberOf start_d)).dedup
  let total_weeks := count_weeks_in_period start_d end_d
  let min_weeks_required := max 1 total_weeks
  let compliant := decide ((weeks_with_attendance.length : Int) ≥ min_weeks_required)
  { compliant := compliant
    weeks_with_attendance := weeks_with_attendance.length
    total_weeks_in_period := total_weeks
    min_weeks_required := min_weeks_required
    reason := "Se requiere asistencia en al menos " ++ toString min_weeks_required ++
      " semana(s), se asistió en " ++ toString weeks_with_attendance.length ++
      " semana(s)" }

/-- The pairing loop of `_day_meets_minimum_hours` (lines 259-278): walk the
sorted records two at a time, adding the elapsed hours of each complete
(entry, exit) pair; an unpaired trailing record contributes nothing. -/
def pairHours : List Int → ℚ
  | a :: b :: rest => hoursBetween a b + pairHours rest
  | _ => 0

/-- `_day_meets_minimum_hours` (lines 245-284): false outright with fewer
than two records, else the paired total of the sorted records must reach
8 hours. -/
def day_meets_minimum_hours (day_records : List Int) : Bool :=
  if day_records.length < 2 then false
  else decide (8 ≤ pairHours (sortRecords day_records))

/-- `_check_minimum_hours` (lines 223-243). `daily_values` is the grouped
dict's value list (one record list per attended day). -/
def check_minimum_hours (daily_values : List (List Int)) : Rule3Result :=
  let days_meeting_hours := (daily_values.filter day_meets_minimum_hours).length
  let total_days := daily_values.length
  let min_days_required : Nat := 6
  let compliant := decide (days_meeting_hours ≥ min_days_required)
  { compliant := compliant
    days_meeting_hours := days_meeting_hours
    total_days := total_days
    min_days_required := min_days_required
    reason := "Se requieren mínimo " ++ toString min_days_required ++
      " días con 8+ horas, se cumplió en " ++ toString days_meeting_hours ++ " días" }

/-- `check_multiple_employees_compliance` (lines 306-341): evaluate each
employee in order; a raising evaluation becomes a non-compliant verdict
carrying the error text. The per-employee evaluation
(`check_employee_compliance` with its database fetch) is the collaborator
`check`; `period` is the formatted period string. -/
def check_multiple_employees_compliance (check : Int → Except String Verdict)
    (period : String) (employee_ids : List Int) : List Verdict :=
  employee_ids.map (fun employee_id =>
    match check employee_id with
    | Except.ok v => v
    | Except.error e =>
        { employee_id := employee_id
          period := period
          compliance := false
          reason := "Error al verificar cumplimiento: " ++ e })

/-- The interval list of the pairing loop of `_day_meets_minimum_hours`:
one elapsed-hours value per complete (entry, exit) pair. -/
def pairDiffs : List Int → List ℚ
  | a :: b :: rest => hoursBetween a b :: pairDiffs rest
  | _ => []

/-- The spec reading of the pairing rule: sum, over pair index `i`, of the
elapsed hours between the `2i`-th and `(2i+1)`-th punches (1st+2nd,
3rd+4th, …), counting only complete pairs. -/
def specPairSum (l : List Int) : ℚ :=
  ∑ i ∈ Finset.range (l.length / 2),
    hoursBetween (l.getD (2 * i) 0) (l.getD (2 * i + 1) 0)

/-- A day lookup is complete when the date is attended and its
`DailyAttendance` has `is_complete`. -/
def isCompleteAt (att : Nat → Option DailyAttendance) (d : Nat) : Bool :=
  match att d with
  | some a => a.is_complete
  | none => false

theorem strInfix_parts (n s : String) (pre post : List Char)
    (h : s.data = pre ++ n.data ++ post) : List.IsInfix n.data s.data :=
  ⟨pre, post, h.symm⟩

theorem sortRecords_pair (a b : Int) : sortRecords [a, b] = [min a b, max a b] := by
  by_cases hab : a ≤ b
  · simp [sortRecords, List.insertionSort, List.orderedInsert, hab,
      min_eq_left hab, max_eq_right hab]
  · push_neg at hab
    simp [sortRecords, List.insertionSort, List.orderedInsert, not_le.mpr hab,
      min_eq_right hab.le, max_eq_left hab.le]

theorem sortRecords_singleton (a : Int) : sortRecords [a] = [a] := by
  simp [sortRecords, List.insertionSort, List.orderedInsert]

theorem length_sortRecords (l : List Int) : (sortRecords l).length = l.length :=
  List.length_insertionSort _ l

theorem sorted_sortRecords (l : List Int) : (sortRecords l).Sorted (· ≤ ·) :=
  List.sorted_insertionSort _ l

/-- C2: Rule 1 (`_check_minimum_days`) is compliant iff the number of
distinct dates with at least one grouped punch is at least 6 (day
completeness plays no role, only the key count), and its reason text
contains the required minimum and the attended-day count. By the iff,
6 distinct days are compliant and 5 are not. -/
theorem check_minimum_days_c2 (records : List Int) (start_d end_d : Int)
    (total_records : Nat) :
    ((check_minimum_days (group_by_day_keys records start_d end_d) total_records).compliant
        = true ↔
      6 ≤ (((records.filter
              (fun t => decide (start_d ≤ t) && decide (t ≤ end_d))).map
            dateOf).toFinset.card)) ∧
    List.IsInfix
      (toString
        (check_minimum_days (group_by_day_keys records start_d end_d)
          total_records).min_required).data
      (check_minimum_days (group_by_day_keys records start_d end_d)
        total_records).reason.data ∧
    List.IsInfix
      (toString
        (check_minimum_days (group_by_day_keys records start_d end_d)
          total_records).days_attended).data
      (check_minimum_days (group_by_day_keys records start_d end_d)
        total_records).reason.data := by
  refine ⟨?_, ?_, ?_⟩
  · simp [check_minimum_days, group_by_day_keys, List.card_toFinset, ge_iff_le]
  · simp only [check_minimum_days]
    split_ifs
    · refine strInfix_parts _ _ "Se requieren mínimo ".data
        ((" días, se asistió " ++
          toString (group_by_day_keys records start_d end_d).length ++
          " días (Total registros: " ++ toString total_records ++
          ", pero ninguno en el período especificado)").data) ?_
      simp [String.data_append]
    · refine strInfix_parts _ _ "Se requieren mínimo ".data
        ((" días, se asistió " ++
          toString (group_by_day_keys records start_d end_d).length ++
          " días").data) ?_
      simp [String.data_append]
  · simp only [check_minimum_days]
    split_ifs
    · refine strInfix_parts _ _
        (("Se requieren mínimo " ++ toString (6 : Nat) ++ " días, se asistió ").data)
        ((" días (Total registros: " ++ toString total_records ++
          ", pero ninguno en el período especificado)").data) ?_
      simp [String.data_append]
    · refine strInfix_parts _ _
        (("Se requieren mínimo " ++ toString (6 : Nat) ++ " días, se asistió ").data)
        (" días".data) ?_
      simp [String.data_append]

/-- C3: Rule 2 (`_check_weekly_distribution`) is compliant iff the number
of distinct period-relative week numbers `((date - start).days // 7) + 1`
over the attended dates reaches the required count
`max 1 (((end - start).days // 7) + 1)` capped at 5. -/
theorem check_weekly_distribution_c3 (daily_keys : List Int) (start_d end_d : Int) :
    (check_weekly_distribution daily_keys start_d end_d).compliant = true ↔
      min (max 1 (((end_d - start_d).fdiv 86400).fdiv 7 + 1)) 5 ≤
        ((daily_keys.map
            (fun d => ((d * 86400 - start_d).fdiv 86400).fdiv 7 + 1)).toFinset.card : Int) := by
  have hkey : (daily_keys.map (weekNumberOf start_d)) =
      daily_keys.map (fun d => ((d * 86400 - start_d).fdiv 86400).fdiv 7 + 1) := by
    simp [weekNumberOf, daysBetween]
  have hcap : max 1 (count_weeks_in_period start_d end_d) =
      min (max 1 (((end_d - start_d).fdiv 86400).fdiv 7 + 1)) 5 := by
    unfold count_weeks_in_period daysBetween
    dsimp only
    split_ifs with h
    · omega
    · omega
  simp only [check_weekly_distribution, decide_eq_true_eq, ge_iff_le, hkey, hcap,
    List.card_toFinset]

/-- C5: batch evaluation returns one verdict per employee id, in input
order; an id whose evaluation succeeds gets exactly the single-employee
verdict, and an id whose evaluation raises gets a verdict with
`compliance = false` whose reason contains the error text. -/
theorem check_multiple_employees_compliance_c5 (check : Int → Except String Verdict)
    (period : String) (employee_ids : List Int) :
    (check_multiple_employees_compliance check period employee_ids).length
        = employee_ids.length ∧
    ∀ (i : Nat) (eid : Int), employee_ids[i]? = some eid →
      (∀ v, check eid = Except.ok v →
        (check_multiple_employees_compliance check period employee_ids)[i]? = some v) ∧
      (∀ e, check eid = Except.error e →
        ∃ w, (check_multiple_employees_compliance check period employee_ids)[i]?
              = some w ∧
          w.compliance = false ∧ List.IsInfix e.data w.reason.data) := by
  refine ⟨List.length_map _ _, ?_⟩
  intro i eid hid
  constructor
  · intro v hv
    simp [check_multiple_employees_compliance, List.getElem?_map, hid, hv]
  · intro e he
    refine ⟨{ employee_id := eid, period := period, compliance := false,
              reason := "Error al verificar cumplimiento: " ++ e }, ?_, rfl, ?_⟩
    · simp [check_multiple_employees_compliance, List.getElem?_map, hid, he]
    · exact strInfix_parts _ _ "Error al verificar cumplimiento: ".data []
        (by simp [String.data_append])

/-- A concrete per-employee evaluator for exercising the batch loop:
employee 2's fetch raises, the others succeed. -/
def c5check : Int → Except String Verdict :=
  fun employee_id =>
    if employee_id = 2 then Except.error "fallo de consulta"
    else Except.ok { employee_id := employee_id, period := "2025-09-01 a 2025-09-30",
                     compliance := true, reason := "Cumple con todas las reglas" }

theorem check_multiple_employees_compliance_c5_witness :
    (check_multiple_employees_compliance c5check "2025-09-01 a 2025-09-30"
        [1, 2, 3]).length = ([1, 2, 3] : List Int).length ∧
    (∃ w, (check_multiple_employees_compliance c5check "2025-09-01 a 2025-09-30"
            [1, 2, 3])[1]? = some w ∧
        w.compliance = false ∧ List.IsInfix "fallo de consulta".data w.reason.data) ∧
    (check_multiple_employees_compliance c5check "2025-09-01 a 2025-09-30"
        [1, 2, 3])[0]?
      = some { employee_id := 1, period := "2025-09-01 a 2025-09-30",
               compliance := true, reason := "Cumple con todas las reglas" } :=
  ⟨(check_multiple_employees_compliance_c5 c5check "2025-09-01 a 2025-09-30"
      [1, 2, 3]).1,
   ((check_multiple_employees_compliance_c5 c5check "2025-09-01 a 2025-09-30"
      [1, 2, 3]).2 1 2 (by rfl)).2 "fallo de consulta" (by rfl),
   ((check_multiple_employees_compliance_c5 c5check "2025-09-01 a 2025-09-30"
      [1, 2, 3]).2 0 1 (by rfl)).1 _ (by rfl)⟩

/-- C6: a date whose grouped record list has exactly two punches yields a
complete `DailyAttendance` whose entry is the earlier punch, whose exit is
the later punch and whose hours are the exact elapsed fraction; a date
with exactly one punch yields an incomplete day with only `entry_time`
set. -/
theorem parse_daily_attendance_c6 :
    (∀ (records : List Int) (d a b : Int), groupForDate records d = [a, b] →
      parse_daily_attendance records d = some
        { date := d, entry_time := some (min a b), exit_time := some (max a b),
          hours_worked := some (hoursBetween (min a b) (max a b)),
          is_complete := true,
          meets_9h_requirement := decide (9 ≤ hoursBetween (min a b) (max a b)) }) ∧
    (∀ (records : List Int) (d a : Int), groupForDate records d = [a] →
      parse_daily_attendance records d = some
        { date := d, entry_time := some a, exit_time := none, hours_worked := none,
          is_complete := false, meets_9h_requirement := false }) := by
  constructor
  · intro records d a b hg
    unfold parse_daily_attendance
    rw [hg]
    simp [parse_day_records, sortRecords_pair]
  · intro records d a hg
    unfold parse_daily_attendance
    rw [hg]
    simp [parse_day_records, sortRecords_singleton]

theorem parse_daily_attendance_c6_witness :
    parse_daily_attendance [61200, 32400] 0 = some
      { date := 0, entry_time := some (min 61200 32400),
        exit_time := some (max 61200 32400),
        hours_worked := some (hoursBetween (min 61200 32400) (max 61200 32400)),
        is_complete := true,
        meets_9h_requirement :=
          decide (9 ≤ hoursBetween (min 61200 32400) (max 61200 32400)) } ∧
    parse_daily_attendance [90000] 1 = some
      { date := 1, entry_time := some 90000, exit_time := none, hours_worked := none,
        is_complete := false, meets_9h_requirement := false } :=
  ⟨parse_daily_attendance_c6.1 [61200, 32400] 0 61200 32400 (by decide),
   parse_daily_attendance_c6.2 [90000] 1 90000 (by decide)⟩

/-- C9: any `DailyAttendance` produced by `_parse_daily_attendance`
satisfies: `meets_9h_requirement` implies the day is complete with at
least 9 recorded hours, and hours are present exactly when the day is
complete. -/
theorem parse_daily_attendance_c9 (records : List Int) (d : Int)
    (da : DailyAttendance) (hda : parse_daily_attendance records d = some da) :
    (da.meets_9h_requirement = true →
      da.is_complete = true ∧ ∃ h, da.hours_worked = some h ∧ 9 ≤ h) ∧
    (da.hours_worked.isSome = true ↔ da.is_complete = true) := by
  have hda' : da = parse_day_records d (groupForDate records d) := by
    unfold parse_daily_attendance at hda
    rcases hg : groupForDate records d with _ | ⟨x, xs⟩
    · rw [hg] at hda; exact absurd hda (by simp)
    · rw [hg] at hda
      simpa using hda.symm
  subst hda'
  unfold parse_day_records
  rcases hs : sortRecords (groupForDate records d) with _ | ⟨a, _ | ⟨b, _ | ⟨c, t⟩⟩⟩
  · simp
  · simp
  · refine ⟨fun h9 => ⟨rfl, hoursBetween a b, rfl, ?_⟩, by simp⟩
    simpa using h9
  · simp

def c9day : DailyAttendance :=
  { date := 0, entry_time := some 0, exit_time := some 32400,
    hours_worked := some (hoursBetween 0 32400), is_complete := true,
    meets_9h_requirement := decide (9 ≤ hoursBetween 0 32400) }

theorem parse_daily_attendance_c9_witness :
    (c9day.meets_9h_requirement = true →
      c9day.is_complete = true ∧ ∃ h, c9day.hours_worked = some h ∧ 9 ≤ h) ∧
    (c9day.hours_worked.isSome = true ↔ c9day.is_complete = true) :=
  parse_daily_attendance_c9 [0, 32400] 0 c9day (by rfl)

theorem pairDiffs_nonneg : ∀ l : List Int, l.Sorted (· ≤ ·) →
    ∀ q ∈ pairDiffs l, 0 ≤ q
  | [] => by intro _ q hq; simp [pairDiffs] at hq
  | [_] => by intro _ q hq; simp [pairDiffs] at hq
  | a :: b :: rest => by
    intro hs q hq
    simp only [pairDiffs, List.mem_cons] at hq
    rcases hq with rfl | hq
    · have hab : a ≤ b := by
        simp only [List.sorted_cons, List.mem_cons] at hs
        exact hs.1 b (Or.inl rfl)
      have : (0 : ℚ) ≤ ((b - a : Int) : ℚ) := by
        exact_mod_cast sub_nonneg.mpr hab
      exact div_nonneg this (by norm_num)
    · exact pairDiffs_nonneg rest (hs.of_cons.of_cons) q hq

theorem pairHours_eq_sum_pairDiffs : ∀ l : List Int, pairHours l = (pairDiffs l).sum
  | [] => by simp [pairHours, pairDiffs]
  | [_] => by simp [pairHours, pairDiffs]
  | a :: b :: rest => by
    simp only [pairHours, pairDiffs, List.sum_cons]
    rw [pairHours_eq_sum_pairDiffs rest]

/-- C10: every hours value the core computes is non-negative, because both
paths sort ascending first: a complete day's `hours_worked` is ≥ 0, each
(entry, exit) interval of the rule-based pairing contributes ≥ 0, and the
paired total is exactly the sum of those contributions. -/
theorem hours_nonneg_c10 :
    (∀ (records : List Int) (d : Int) (da : DailyAttendance) (h : ℚ),
      parse_daily_attendance records d = some da → da.hours_worked = some h →
        0 ≤ h) ∧
    (∀ (rs : List Int) (q : ℚ), q ∈ pairDiffs (sortRecords rs) → 0 ≤ q) ∧
    (∀ l : List Int, pairHours l = (pairDiffs l).sum) := by
  refine ⟨?_, ?_, pairHours_eq_sum_pairDiffs⟩
  · intro records d da h hda hh
    have hda' : da = parse_day_records d (groupForDate records d) := by
      unfold parse_daily_attendance at hda
      rcases hg : groupForDate records d with _ | ⟨x, xs⟩
      · rw [hg] at hda; exact absurd hda (by simp)
      · rw [hg] at hda
        simpa using hda.symm
    subst hda'
    unfold parse_day_records at hh
    have hsorted := sorted_sortRecords (groupForDate records d)
    rcases hs : sortRecords (groupForDate records d) with _ | ⟨a, _ | ⟨b, _ | ⟨c, t⟩⟩⟩ <;>
      rw [hs] at hh hsorted <;> simp at hh
    have hab : a ≤ b := by
      simp only [List.sorted_cons, List.mem_cons] at hsorted
      exact hsorted.1 b (Or.inl rfl)
    rw [← hh]
    have : (0 : ℚ) ≤ ((b - a : Int) : ℚ) := by
      exact_mod_cast sub_nonneg.mpr hab
    exact div_nonneg this (by norm_num)
  · intro rs q hq
    exact pairDiffs_nonneg (sortRecords rs) (sorted_sortRecords rs) q hq

theorem hours_nonneg_c10_witness :
    (0 : ℚ) ≤ hoursBetween 0 32400 ∧ (0 : ℚ) ≤ hoursBetween 32400 61200 ∧
      pairHours [32400, 61200] = (pairDiffs [32400, 61200]).sum :=
  ⟨hours_nonneg_c10.1 [0, 32400] 0
      { date := 0, entry_time := some 0, exit_time := some 32400,
        hours_worked := some (hoursBetween 0 32400), is_complete := true,
        meets_9h_requirement := decide (9 ≤ hoursBetween 0 32400) }
      (hoursBetween 0 32400) (by rfl) (by rfl),
   hours_nonneg_c10.2.1 [61200, 32400] (hoursBetween 32400 61200) (by
      simp [sortRecords, List.insertionSort, List.orderedInsert, pairDiffs]),
   hours_nonneg_c10.2.2 [32400, 61200]⟩

theorem pairHours_eq_specPairSum : ∀ l : List Int, pairHours l = specPairSum l
  | [] => by simp [pairHours, specPairSum]
  | [_] => by simp [pairHours, specPairSum]
  | a :: b :: rest => by
    have ih := pairHours_eq_specPairSum rest
    have hlen : (a :: b :: rest).length / 2 = rest.length / 2 + 1 := by
      simp only [List.length_cons]
      omega
    calc pairHours (a :: b :: rest)
        = hoursBetween a b + pairHours rest := by simp only [pairHours]
      _ = hoursBetween a b + specPairSum rest := by rw [ih]
      _ = specPairSum rest + hoursBetween a b := by ring
      _ = specPairSum (a :: b :: rest) := by
          unfold specPairSum
          rw [hlen, Finset.sum_range_succ']
          congr 1

/-- C4: a day meets Rule 3's hour threshold iff the sum of elapsed hours
over the complete sequential pairs (1st+2nd, 3rd+4th, …) of its sorted
punches reaches exactly 8.0 hours, and Rule 3 is compliant iff at least 6
days meet that threshold. -/
theorem day_meets_minimum_hours_c4 :
    (∀ rs : List Int,
      day_meets_minimum_hours rs = true ↔ 8 ≤ specPairSum (sortRecords rs)) ∧
    (∀ daily_values : List (List Int),
      (check_minimum_hours daily_values).compliant = true ↔
        6 ≤ daily_values.countP
              (fun rs => decide (8 ≤ specPairSum (sortRecords rs)))) := by
  have hday : ∀ rs : List Int,
      day_meets_minimum_hours rs = true ↔ 8 ≤ specPairSum (sortRecords rs) := by
    intro rs
    unfold day_meets_minimum_hours
    split_ifs with hlen
    · have hz : specPairSum (sortRecords rs) = 0 := by
        unfold specPairSum
        have : (sortRecords rs).length / 2 = 0 := by
          rw [length_sortRecords]; omega
        rw [this]
        simp
      simp [hz]
    · rw [pairHours_eq_specPairSum]
      simp
  refine ⟨hday, ?_⟩
  intro daily_values
  unfold check_minimum_hours
  have hcount : (daily_values.filter day_meets_minimum_hours).length
      = daily_values.countP
          (fun rs => decide (8 ≤ specPairSum (sortRecords rs))) := by
    rw [← List.countP_eq_length_filter]
    apply List.countP_congr
    intro rs _
    have hiff := hday rs
    cases hb : day_meets_minimum_hours rs <;>
      cases hd : decide (8 ≤ specPairSum (sortRecords rs)) <;> simp_all <;> linarith
  simp only [hcount, decide_eq_true_eq, ge_iff_le]

theorem chunks7_flatten : ∀ l : List Nat, (chunks7 l).flatten = l
  | [] => by simp [chunks7]
  | d :: rest => by
    rw [chunks7]
    simp only [List.flatten_cons]
    rw [chunks7_flatten (rest.drop 6)]
    simp [List.take_append_drop]
termination_by l => l.length
decreasing_by simp; omega

theorem chunks7_mem_not_empty : ∀ l : List Nat, ∀ c ∈ chunks7 l, c.isEmpty = false
  | [] => by simp [chunks7]
  | d :: rest => by
    intro c hc
    rw [chunks7] at hc
    rcases List.mem_cons.mp hc with rfl | hc
    · simp
    · exact chunks7_mem_not_empty (rest.drop 6) c hc
termination_by l => l.length
decreasing_by simp; omega

theorem monthWeeks_flatten (w n : Nat) : (monthWeeks w n).flatten = List.range' 1 n := by
  unfold monthWeeks
  rcases hr : List.range' 1 n with _ | ⟨d, rest⟩
  · simp
  · simp only [List.flatten_cons, chunks7_flatten]
    simp [List.take_append_drop]

theorem monthWeeks_mem_not_empty (w n : Nat) :
    ∀ wk ∈ monthWeeks w n, wk.isEmpty = false := by
  unfold monthWeeks
  rcases hr : List.range' 1 n with _ | ⟨d, rest⟩
  · simp
  · intro wk hwk
    rcases List.mem_cons.mp hwk with rfl | hwk
    · simp
    · exact chunks7_mem_not_empty _ wk hwk

theorem length_filter_complete (att : Nat → Option DailyAttendance) :
    ∀ wk : List Nat,
      ((wk.filterMap att).filter (fun a => a.is_complete)).length
        = wk.countP (isCompleteAt att)
  | [] => by simp [isCompleteAt]
  | d :: t => by
    have ih := length_filter_complete att t
    rcases hatt : att d with _ | a
    · simp [List.filterMap_cons, hatt, List.countP_cons, isCompleteAt, ih]
    · rcases hc : a.is_complete
      · simp [List.filterMap_cons, hatt, List.countP_cons, isCompleteAt, hc,
          List.filter_cons, ih]
      · simp [List.filterMap_cons, hatt, List.countP_cons, isCompleteAt, hc,
          List.filter_cons, ih]

/-- C8: the calendar weeks built by `_analyze_weekly_patterns` partition
the month's day numbers `1 .. n` with no gap or overlap, so the
`total_days_attended` of `analyze_employee_month` — the sum of each week's
`days_attended` — equals the number of the month's dates whose
`DailyAttendance` is complete. -/
theorem analyze_weekly_patterns_c8 (att : Nat → Option DailyAttendance) (w n : Nat) :
    (monthWeeks w n).flatten = List.range' 1 n ∧
    total_days_attended att w n = (List.range' 1 n).countP (isCompleteAt att) := by
  refine ⟨monthWeeks_flatten w n, ?_⟩
  unfold total_days_attended analyze_weekly_patterns
  have hfil : (monthWeeks w n).filter (fun wk => !wk.isEmpty) = monthWeeks w n := by
    apply List.filter_eq_self.mpr
    intro wk hwk
    simp [monthWeeks_mem_not_empty w n wk hwk]
  rw [hfil, List.map_map]
  have hmap : (monthWeeks w n).map ((fun p => p.days_attended) ∘ buildWeek att)
      = (monthWeeks w n).map (fun wk => wk.countP (isCompleteAt att)) := by
    apply List.map_congr_left
    intro wk _
    simp only [Function.comp_apply, buildWeek]
    exact length_filter_complete att wk
  rw [hmap, ← List.countP_flatten, monthWeeks_flatten]

theorem combineOverall_cases (d h : ComplianceStatus) (p : Bool) :
    (combineOverall d h p = ComplianceStatus.compliant ↔
      d = ComplianceStatus.compliant ∧ h = ComplianceStatus.compliant ∧ p = true) ∧
    (combineOverall d h p = ComplianceStatus.nonCompliant ↔
      d = ComplianceStatus.nonCompliant ∨ h = ComplianceStatus.nonCompliant) ∧
    (combineOverall d h p = ComplianceStatus.partialStatus ↔
      ¬(d = ComplianceStatus.compliant ∧ h = ComplianceStatus.compliant ∧ p = true) ∧
      d ≠ ComplianceStatus.nonCompliant ∧ h ≠ ComplianceStatus.nonCompliant) := by
  cases d <;> cases h <;> cases p <;> decide

/-- C1 (amended): the overall status of `_evaluate_compliance` is
compliant iff all three dimensions are compliant, but it is non-compliant
iff the days or the hours dimension is non-compliant — a failing pattern
dimension alone yields partial, not non-compliant. -/
theorem evaluate_compliance_c1_amended (wps : List WeeklyPattern) (tda : Nat)
    (thw : ℚ) :
    ((evaluate_compliance wps tda thw).2.2.1 = ComplianceStatus.compliant ↔
      (evaluate_compliance wps tda thw).1 = ComplianceStatus.compliant ∧
      (evaluate_compliance wps tda thw).2.1 = ComplianceStatus.compliant ∧
      (evaluate_compliance wps tda thw).2.2.2 = true) ∧
    ((evaluate_compliance wps tda thw).2.2.1 = ComplianceStatus.nonCompliant ↔
      (evaluate_compliance wps tda thw).1 = ComplianceStatus.nonCompliant ∨
      (evaluate_compliance wps tda thw).2.1 = ComplianceStatus.nonCompliant) ∧
    ((evaluate_compliance wps tda thw).2.2.1 = ComplianceStatus.partialStatus ↔
      ¬((evaluate_compliance wps tda thw).1 = ComplianceStatus.compliant ∧
        (evaluate_compliance wps tda thw).2.1 = ComplianceStatus.compliant ∧
        (evaluate_compliance wps tda thw).2.2.2 = true) ∧
      (evaluate_compliance wps tda thw).1 ≠ ComplianceStatus.nonCompliant ∧
      (evaluate_compliance wps tda thw).2.1 ≠ ComplianceStatus.nonCompliant) := by
  have ho : (evaluate_compliance wps tda thw).2.2.1
      = combineOverall (evaluate_compliance wps tda thw).1
          (evaluate_compliance wps tda thw).2.1
          (evaluate_compliance wps tda thw).2.2.2 := rfl
  rw [ho]
  exact combineOverall_cases _ _ _

/-- A complete 9-hour day on day number `d`, as the analyzer would build
it. -/
def cexDay (d : Int) : DailyAttendance :=
  { date := d, entry_time := some (d * 86400 + 32400),
    exit_time := some (d * 86400 + 64800), hours_worked := some 9,
    is_complete := true, meets_9h_requirement := true }

/-- A week attended on three days — more than the allowed 1-2 pattern. -/
def cexWeek1 : WeeklyPattern :=
  { week_start := 1, week_end := 7, days_attended := 3, total_hours := 27,
    days_details := [cexDay 1, cexDay 2, cexDay 3],
    meets_pattern_requirement := false }

/-- A second three-day week, bringing the month to 6 attended days. -/
def cexWeek2 : WeeklyPattern :=
  { week_start := 8, week_end := 14, days_attended := 3, total_hours := 27,
    days_details := [cexDay 8, cexDay 9, cexDay 10],
    meets_pattern_requirement := false }

/-- C1 counterexample: with 6 attended days (compliant), all days meeting
9 hours (compliant) and two weeks of 3 attended days (pattern dimension
non-compliant), the overall status is partial, not non-compliant — so a
non-compliant pattern dimension alone does not make the overall status
non-compliant. -/
theorem evaluate_compliance_c1_counterexample :
    (evaluate_compliance [cexWeek1, cexWeek2] 6 54).2.2.2 = false ∧
    (evaluate_compliance [cexWeek1, cexWeek2] 6 54).1 = ComplianceStatus.compliant ∧
    (evaluate_compliance [cexWeek1, cexWeek2] 6 54).2.1 = ComplianceStatus.compliant ∧
    (evaluate_compliance [cexWeek1, cexWeek2] 6 54).2.2.1 ≠
      ComplianceStatus.nonCompliant ∧
    (evaluate_compliance [cexWeek1, cexWeek2] 6 54).2.2.1 =
      ComplianceStatus.partialStatus := by
  decide

theorem pairHours_append_singleton : ∀ (l : List Int) (a : Int),
    l.length % 2 = 0 → pairHours (l ++ [a]) = pairHours l
  | [], a, _ => by simp [pairHours]
  | [_], _, h => by simp at h
  | x :: y :: rest, a, h => by
    have hrest : rest.length % 2 = 0 := by
      simp only [List.length_cons] at h
      omega
    simp only [List.cons_append, pairHours]
    exact congrArg (hoursBetween x y + ·) (pairHours_append_singleton rest a hrest)

theorem parse_day_records_of_two_lt (d : Int) (l : List Int) (hl : 2 < l.length) :
    parse_day_records d l =
      { date := d, entry_time := none, exit_time := none, hours_worked := none,
        is_complete := false, meets_9h_requirement := false } := by
  unfold parse_day_records
  have hlen := length_sortRecords l
  rcases hs : sortRecords l with _ | ⟨a, _ | ⟨b, _ | ⟨c, t⟩⟩⟩ <;> rw [hs] at hlen
  · simp at hlen; omega
  · simp at hlen; omega

/-- C7 (amended): for a date with more than two punches the Daily
Aggregator (`_parse_daily_attendance`) does no pairing at all — the day is
still reported, but with entry, exit and hours all absent and
`is_complete = false`; the sequential pairing that ignores an unpaired
trailing punch lives in the rule-based path (`_day_meets_minimum_hours`),
where a trailing punch after an even number of punches does not change the
paired total. -/
theorem parse_daily_attendance_c7_amended :
    (∀ (records : List Int) (d : Int), 2 < (groupForDate records d).length →
      parse_daily_attendance records d = some
        { date := d, entry_time := none, exit_time := none, hours_worked := none,
          is_complete := false, meets_9h_requirement := false }) ∧
    (∀ (l : List Int) (a : Int), l.length % 2 = 0 →
      pairHours (l ++ [a]) = pairHours l) := by
  refine ⟨?_, pairHours_append_singleton⟩
  intro records d hlen
  unfold parse_daily_attendance
  rcases hg : groupForDate records d with _ | ⟨x, xs⟩
  · rw [hg] at hlen; simp at hlen
  · rw [hg] at hlen
    have : parse_day_records d (x :: xs) =
        { date := d, entry_time := none, exit_time := none, hours_worked := none,
          is_complete := false, meets_9h_requirement := false } :=
      parse_day_records_of_two_lt d (x :: xs) hlen
    simp [this]

theorem parse_daily_attendance_c7_witness :
    parse_daily_attendance [0, 3600, 7200] 0 = some
      { date := 0, entry_time := none, exit_time := none, hours_worked := none,
        is_complete := false, meets_9h_requirement := false } ∧
    pairHours ([0, 3600] ++ [7200]) = pairHours [0, 3600] :=
  ⟨parse_daily_attendance_c7_amended.1 [0, 3600, 7200] 0 (by decide),
   parse_daily_attendance_c7_amended.2 [0, 3600] 7200 (by decide)⟩

/-- C7 counterexample: a day with punches at 09:00, 13:00 and 17:00.
Sequential pairing of the sorted punches would yield 4 elapsed hours
(09:00-13:00, with 17:00 unpaired), but `_parse_daily_attendance` reports
the day with no hours, no entry and no exit at all: the Daily Aggregator
does not pair punches on days with more than two records. -/
theorem parse_daily_attendance_c7_counterexample :
    parse_daily_attendance [32400, 46800, 61200] 0 = some
      { date := 0, entry_time := none, exit_time := none, hours_worked := none,
        is_complete := false, meets_9h_requirement := false } ∧
    pairHours (sortRecords [32400, 46800, 61200]) = 4 := by
  constructor
  · rfl
  · show hoursBetween 32400 46800 + pairHours [61200] = 4
    norm_num [hoursBetween, pairHours]
